import Mathlib

/-!
Verification development for the SpacetimeDB schema display tool
(src/schema.rs).  The SATS type model, the pattern detectors, the
recursive type formatter and the query/display engine are embedded
shallowly below; printed output is modelled as a list of text lines
(colour codes and glyphs are presentation detail per the design spec).
-/

set_option maxHeartbeats 1000000

namespace SpacetimeSchema

/-! ## Type model (sats_types in src/schema.rs)

The source `OptionalName` enum is embedded through its `as_option`
view as `Option String`, which is the only way the code consumes it. -/

mutual

inductive AlgebraicType : Type where
  | Bool : AlgebraicType
  | I8 : AlgebraicType
  | U8 : AlgebraicType
  | I16 : AlgebraicType
  | U16 : AlgebraicType
  | I32 : AlgebraicType
  | U32 : AlgebraicType
  | I64 : AlgebraicType
  | U64 : AlgebraicType
  | I128 : AlgebraicType
  | U128 : AlgebraicType
  | I256 : AlgebraicType
  | U256 : AlgebraicType
  | F32 : AlgebraicType
  | F64 : AlgebraicType
  | String : AlgebraicType
  | Array : AlgebraicType → AlgebraicType
  | Product : ProductType → AlgebraicType
  | Sum : SumType → AlgebraicType
  | Ref : Nat → AlgebraicType

inductive ProductType : Type where
  | mk (elements : List Element)

inductive SumType : Type where
  | mk (variants : List Variant)

inductive Element : Type where
  | mk (name : Option String) (algebraic_type : AlgebraicType)

inductive Variant : Type where
  | mk (name : Option String) (algebraic_type : AlgebraicType)

end

def ProductType.elements : ProductType → List Element
  | .mk es => es

def SumType.variants : SumType → List Variant
  | .mk vs => vs

def Element.name : Element → Option String
  | .mk n _ => n

def Element.algebraic_type : Element → AlgebraicType
  | .mk _ t => t

def Variant.name : Variant → Option String
  | .mk n _ => n

def Variant.algebraic_type : Variant → AlgebraicType
  | .mk _ t => t

inductive BuiltinType : Type where
  | Bool : BuiltinType
  | I8 : BuiltinType
  | U8 : BuiltinType
  | I16 : BuiltinType
  | U16 : BuiltinType
  | I32 : BuiltinType
  | U32 : BuiltinType
  | I64 : BuiltinType
  | U64 : BuiltinType
  | I128 : BuiltinType
  | U128 : BuiltinType
  | F32 : BuiltinType
  | F64 : BuiltinType
  | String : BuiltinType
  | Array : AlgebraicType → BuiltinType
  | Map (key_ty : AlgebraicType) (ty : AlgebraicType) : BuiltinType

inductive TypeDef : Type where
  | Product : ProductType → TypeDef
  | Sum : SumType → TypeDef
  | Builtin : BuiltinType → TypeDef
  | Ref : Nat → TypeDef

structure TypeSpace where
  types : List TypeDef

structure TableInfo where
  name : String
  product_type_ref : Nat
  primary_key : List Nat
deriving DecidableEq

structure TypeName where
  scope : List String
  name : String
deriving DecidableEq

structure NamedType where
  name : TypeName
  ty : Nat
  custom_ordering : Bool
deriving DecidableEq

structure SatsSchema where
  typespace : TypeSpace
  tables : List TableInfo
  types : List NamedType

/-! ## String helpers

Models of the String operations the Rust code uses:
`to_lowercase` (per-character lowering), `contains` (substring test),
`starts_with`, and `eq_ignore_ascii_case`. -/

/-- Model of Rust `str::to_lowercase`, lowering character by character. -/
def strLower (s : String) : String :=
  String.mk (s.data.map Char.toLower)

/-- Model of Rust `char::to_ascii_lowercase`. -/
def asciiLowerChar (c : Char) : Char :=
  if ('A' ≤ c ∧ c ≤ 'Z') then Char.ofNat (c.toNat + 32) else c

/-- Model of Rust `str::eq_ignore_ascii_case`: same length and equal
after ASCII-lowering both sides. -/
def eqIgnoreAsciiCase (a b : String) : Bool :=
  a.data.map asciiLowerChar == b.data.map asciiLowerChar

/-- Substring test on character lists: does the list contain `pat` as a
contiguous run?  Model of Rust `str::contains` for string patterns. -/
def subListAt (pat : List Char) : List Char → Bool
  | [] => pat.isEmpty
  | c :: rest => pat.isPrefixOf (c :: rest) || subListAt pat rest

/-- Model of Rust `str::contains(pattern)`. -/
def strContainsSub (hay pat : String) : Bool :=
  subListAt pat.data hay.data

/-- Model of Rust `str::starts_with(pattern)`. -/
def strStartsWith (s pat : String) : Bool :=
  pat.data.isPrefixOf s.data

/-! ## Name Resolver (display_schema_pretty, schema.rs lines 210-214)

The Rust code inserts every `NamedType` into a `HashMap<usize, String>`;
a later insert for the same key overwrites the earlier one.  The map is
modelled as an association list with unique keys: insertion replaces the
existing binding in place or appends a fresh one. -/

abbrev NameMap := List (Nat × String)

/-- Model of `HashMap::insert`: overwrite the binding for `k` if one
exists, otherwise append it. -/
def insertName (m : NameMap) (k : Nat) (v : String) : NameMap :=
  if m.any (fun p => p.1 == k) then
    m.map (fun p => if p.1 == k then (k, v) else p)
  else
    m ++ [(k, v)]

/-- Model of `HashMap::get` for the name map. -/
def lookupName (m : NameMap) (i : Nat) : Option String :=
  (m.find? (fun p => p.1 == i)).map (fun p => p.2)

/-- The `type_names` construction of `display_schema_pretty`
(schema.rs lines 210-214): insert `named_type.ty ↦ named_type.name.name`
for each entry in order. -/
def build_type_names (types : List NamedType) : NameMap :=
  types.foldl (fun m nt => insertName m nt.ty nt.name.name) []

/-! ## Pattern Detector (schema.rs lines 479-598) -/

/-- Embedding of `detect_spacetimedb_type` (schema.rs 479-509): a
single-element Product whose element carries a reserved marker name and
the expected scalar type is a well-known SpacetimeDB type. -/
def detect_spacetimedb_type (product : ProductType) : Option String :=
  match product.elements with
  | [element] =>
    match element.name with
    | some "__identity__" =>
      match element.algebraic_type with
      | .U256 => some "Identity"
      | _ => none
    | some "__timestamp_micros_since_unix_epoch__" =>
      match element.algebraic_type with
      | .I64 => some "Timestamp"
      | _ => none
    | some "__time_duration_micros__" =>
      match element.algebraic_type with
      | .I64 => some "Duration"
      | _ => none
    | _ => none
  | _ => none

/-- Embedding of `detect_spacetimedb_sum_type` (schema.rs 511-527):
recognize the ScheduledAt idiom. -/
def detect_spacetimedb_sum_type (sum : SumType) : Option String :=
  if sum.variants.length = 2 then
    let variant_names := sum.variants.filterMap Variant.name
    if variant_names.contains "Interval" && variant_names.contains "Time" then
      some "ScheduledAt"
    else
      none
  else
    none

/-- The per-variant test of the pattern-2 loop of `is_option_type`
(schema.rs 554-562): the variant payload is an empty Product (the
absent arm shape). -/
def isUnitVariant (v : Variant) : Bool :=
  match v.algebraic_type with
  | .Product p => p.elements.isEmpty
  | _ => false

/-- The complementary per-variant test of the same loop: the variant
payload is not an empty Product (the present arm shape). -/
def isDataVariant (v : Variant) : Bool :=
  match v.algebraic_type with
  | .Product p => !p.elements.isEmpty
  | _ => true

/-- The first flag of the pattern-2 loop of `is_option_type`
(schema.rs 551-563): some variant has an empty Product payload. -/
def hasUnitVariant (sum : SumType) : Bool :=
  sum.variants.any isUnitVariant

/-- The second flag of the pattern-2 loop of `is_option_type`
(schema.rs 551-563): some variant does not have an empty Product
payload. -/
def hasDataVariant (sum : SumType) : Bool :=
  sum.variants.any isDataVariant

/-- Modelled from the spec: the inner payload type the specification
assigns to optional rule (b) — the non-unit variant type directly,
unless that type is itself a Product with exactly one element, in which
case the single element type (one level of tupling unwrapped). -/
def specRuleBInner : AlgebraicType → AlgebraicType
  | .Product (.mk [e]) => e.algebraic_type
  | t => t

/-- Embedding of `is_option_type` (schema.rs 529-566). -/
def is_option_type (sum : SumType) : Bool :=
  if sum.variants.length ≠ 2 then
    false
  else
    let variant_names := sum.variants.filterMap Variant.name
    if variant_names.length = 2 &&
        variant_names.contains "Some" && variant_names.contains "None" then
      true
    else
      hasUnitVariant sum && hasDataVariant sum

/-- The second loop of `get_option_inner_type` (schema.rs 577-596):
for variants not named `Some`, pick the one with data, unwrapping a
one-element Product payload to its single element type. -/
def optionInnerLoop : List Variant → Option AlgebraicType
  | [] => none
  | v :: rest =>
    match v.algebraic_type with
    | .Product p =>
      match p.elements with
      | [] => optionInnerLoop rest
      | [e] => some e.algebraic_type
      | _ => some (.Product p)
    | t => some t

/-- Embedding of `get_option_inner_type` (schema.rs 568-598). -/
def get_option_inner_type (sum : SumType) : Option AlgebraicType :=
  match sum.variants.find? (fun v => v.name == some "Some") with
  | some v => some v.algebraic_type
  | none => optionInnerLoop sum.variants

end SpacetimeSchema

namespace SpacetimeSchema

/-- Embedding of `format_type` (schema.rs 408-476). -/
def format_type (alg_type : AlgebraicType) (type_names : NameMap) : String :=
  match alg_type with
  | .Bool => "bool"
  | .I8 => "i8"
  | .U8 => "u8"
  | .I16 => "i16"
  | .U16 => "u16"
  | .I32 => "i32"
  | .U32 => "u32"
  | .I64 => "i64"
  | .U64 => "u64"
  | .I128 => "i128"
  | .U128 => "u128"
  | .I256 => "i256"
  | .U256 => "u256"
  | .F32 => "f32"
  | .F64 => "f64"
  | .String => "String"
  | .Array t => "Vec<" ++ format_type t type_names ++ ">"
  | .Ref i =>
    match lookupName type_names i with
    | some n => n
    | none => "Type_" ++ toString i
  | .Sum s =>
    match detect_spacetimedb_sum_type s with
    | some stdb_type => stdb_type
    | none =>
      if is_option_type s then
        match h : get_option_inner_type s with
        | some inner => "Option<" ++ format_type inner type_names ++ ">"
        | none => "Option<?>"
      else
        "Sum(" ++ toString s.variants.length ++ " variants)"
  | .Product p =>
    match detect_spacetimedb_type p with
    | some stdb_type => stdb_type
    | none =>
      if p.elements.isEmpty then
        "()"
      else if p.elements.all (fun e => e.name.isNone) then
        "(" ++ String.intercalate ", "
          (p.elements.attach.map (fun ⟨e, he⟩ => format_type e.algebraic_type type_names)) ++ ")"
      else
        "Product(" ++ toString p.elements.length ++ " fields)"
termination_by sizeOf alg_type
decreasing_by
all_goals simp_wf
· have key : ∀ (vs : List Variant) (t : AlgebraicType),
      optionInnerLoop vs = some t → sizeOf t < sizeOf vs := by
    intro vs
    induction vs with
    | nil => intro t ht; simp [optionInnerLoop] at ht
    | cons v rest ih =>
      intro t ht
      obtain ⟨n, vt⟩ := v
      simp only [optionInnerLoop, Variant.algebraic_type] at ht
      cases vt
      case Product p =>
        obtain ⟨es⟩ := p
        simp only [ProductType.elements] at ht
        cases es with
        | nil =>
          have := ih t ht
          simp
          omega
        | cons e es2 =>
          cases es2 with
          | nil =>
            simp only [Option.some.injEq] at ht
            obtain ⟨en, ety⟩ := e
            simp_all [Element.algebraic_type]
            omega
          | cons e2 es3 =>
            simp only [Option.some.injEq] at ht
            subst ht
            simp
            omega
      all_goals
        simp only [Option.some.injEq] at ht
        subst ht
        simp
        omega
  rw [get_option_inner_type] at h
  split at h
  next v hf =>
    simp only [Option.some.injEq] at h
    subst h
    have hmem := List.mem_of_find?_eq_some hf
    obtain ⟨vs⟩ := s
    simp only [SumType.variants] at hmem
    have hlt := List.sizeOf_lt_of_mem hmem
    obtain ⟨n, vt⟩ := v
    simp_all [Variant.algebraic_type]
    omega
  next hf =>
    obtain ⟨vs⟩ := s
    simp only [SumType.variants] at h
    have := key vs inner h
    simp
    omega
· obtain ⟨es⟩ := p
  simp only [ProductType.elements] at he
  have hlt := List.sizeOf_lt_of_mem he
  obtain ⟨en, ety⟩ := e
  simp_all [Element.algebraic_type]
  omega

/-! ## Query Engine (display functions, schema.rs 601-841)

Printed output is modelled as a `List String` of lines; glyphs and
colour are presentation detail.  Every display function is total: a
missed lookup produces informational lines (or no lines), never a
failure value. -/

/-- The repeated resolution idiom
`type_names.get(i).cloned().unwrap_or_else(|| format!("Type_{i}"))`. -/
def resolveName (type_names : NameMap) (i : Nat) : String :=
  match lookupName type_names i with
  | some n => n
  | none => "Type_" ++ toString i

/-- Embedding of `display_single_table` (schema.rs 601-643). -/
def display_single_table (schema : SatsSchema) (type_names : NameMap)
    (table_name : String) : List String :=
  match schema.tables.find? (fun t => eqIgnoreAsciiCase t.name table_name) with
  | some table =>
    ["TABLE: " ++ table.name, "Type: " ++ resolveName type_names table.product_type_ref]
    ++ (match schema.typespace.types[table.product_type_ref]? with
        | some (TypeDef.Product p) =>
          ("Fields (" ++ toString p.elements.length ++ "):")
          :: p.elements.filterMap (fun e =>
              e.name.map (fun field_name =>
                "  " ++ field_name ++ ": " ++ format_type e.algebraic_type type_names))
        | _ => [])
    ++ (if table.primary_key.isEmpty then []
        else ["Primary Key: " ++ toString table.primary_key])
  | none =>
    ("Table " ++ table_name ++ " not found")
    :: "Available tables:"
    :: schema.tables.map (fun t => "  - " ++ t.name)

/-- Embedding of `display_single_enum_by_ref` (schema.rs 701-733);
the unused schema parameter of the source is dropped. -/
def display_single_enum_by_ref (type_names : NameMap) (real_name : String)
    (sum : SumType) : List String :=
  ["ENUM: " ++ real_name]
  ++ (match detect_spacetimedb_sum_type sum with
      | some special => ["SpacetimeDB Type: " ++ special]
      | none => [])
  ++ (("Variants (" ++ toString sum.variants.length ++ "):")
      :: sum.variants.filterMap (fun v =>
          v.name.map (fun variant_name =>
            match v.algebraic_type with
            | .Product p =>
              if p.elements.isEmpty then
                "  " ++ variant_name
              else
                "  " ++ variant_name ++ "(" ++ format_type v.algebraic_type type_names ++ ")"
            | _ =>
              "  " ++ variant_name ++ "(" ++ format_type v.algebraic_type type_names ++ ")")))

/-- Embedding of `suggest_similar_types` (schema.rs 808-827), returning
the list of suggested names (the caller prints a header line and one
line per name).  The source filters the name-map values, truncates to
five and then sorts. -/
def suggest_similar_types (type_names : NameMap) (search : String) : List String :=
  let search_lower := strLower search
  let suggestions := (type_names.map (fun p => p.2)).filter (fun name =>
    let name_lower := strLower name
    strContainsSub name_lower search_lower
      || strContainsSub search_lower name_lower
      || strStartsWith name_lower (String.mk (search_lower.data.take 3)))
  (suggestions.take 5).insertionSort (fun a b => a ≤ b)

/-- Embedding of `suggest_enum_types` (schema.rs 829-841): the sorted
enum-name list, truncated to ten for printing. -/
def suggest_enum_types (schema : SatsSchema) (type_names : NameMap) : List String :=
  let enums := (type_names.filter (fun p =>
    match schema.typespace.types[p.1]? with
    | some (TypeDef.Sum _) => true
    | _ => false)).map (fun p => p.2)
  (enums.insertionSort (fun a b => a ≤ b)).take 10

/-- Embedding of `display_single_type` (schema.rs 645-681).  Note the
source prints nothing at all when the matched entry's index falls
outside the typespace: the inner `if let` has no `else` arm. -/
def display_single_type (schema : SatsSchema) (type_names : NameMap)
    (type_name : String) : List String :=
  match type_names.find? (fun p => eqIgnoreAsciiCase p.2 type_name) with
  | some (type_idx, real_name) =>
    match schema.typespace.types[type_idx]? with
    | some (TypeDef.Product p) =>
      ["STRUCT: " ++ real_name]
      ++ (match detect_spacetimedb_type p with
          | some special => ["SpacetimeDB Type: " ++ special]
          | none => [])
      ++ (("Fields (" ++ toString p.elements.length ++ "):")
          :: p.elements.filterMap (fun e =>
              e.name.map (fun field_name =>
                "  " ++ field_name ++ ": " ++ format_type e.algebraic_type type_names)))
    | some (TypeDef.Sum s) => display_single_enum_by_ref type_names real_name s
    | some _ => [type_name ++ " is not a struct or enum"]
    | none => []
  | none =>
    ("Type " ++ type_name ++ " not found")
    :: "Did you mean one of these?"
    :: (suggest_similar_types type_names type_name).map (fun n => "  - " ++ n)

/-- Embedding of `display_single_enum` (schema.rs 683-699). -/
def display_single_enum (schema : SatsSchema) (type_names : NameMap)
    (enum_name : String) : List String :=
  match type_names.find? (fun p => eqIgnoreAsciiCase p.2 enum_name) with
  | some (type_idx, real_name) =>
    match schema.typespace.types[type_idx]? with
    | some (TypeDef.Sum s) => display_single_enum_by_ref type_names real_name s
    | _ =>
      (enum_name ++ " is not an enum")
      :: "Available enums:"
      :: (suggest_enum_types schema type_names).map (fun n => "  - " ++ n)
  | none =>
    ("Enum " ++ enum_name ++ " not found")
    :: "Available enums:"
    :: (suggest_enum_types schema type_names).map (fun n => "  - " ++ n)

/-- The `matching_tables` filter of `display_search_results`
(schema.rs 742-746): table name lowercased contains the lowercased
search text. -/
def search_matching_tables (schema : SatsSchema) (pattern_lower : String) :
    List TableInfo :=
  schema.tables.filter (fun t => strContainsSub (strLower t.name) pattern_lower)

/-- The `matching_types` filter of `display_search_results`
(schema.rs 765-774): name contains the lowercased search text and the
index is not any table's `product_type_ref`. -/
def search_matching_types (schema : SatsSchema) (type_names : NameMap)
    (pattern_lower : String) : List (Nat × String) :=
  type_names.filter (fun p =>
    strContainsSub (strLower p.2) pattern_lower
      && !(schema.tables.any (fun t => t.product_type_ref == p.1)))

/-- Embedding of `display_search_results` (schema.rs 735-806). -/
def display_search_results (schema : SatsSchema) (type_names : NameMap)
    (pat : String) : List String :=
  let pattern_lower := strLower pat
  let matching_tables := search_matching_tables schema pattern_lower
  let matching_types := search_matching_types schema type_names pattern_lower
  ["SEARCH RESULTS FOR: " ++ pat]
  ++ (if matching_tables.isEmpty then []
      else
        "TABLES:" :: matching_tables.map (fun t =>
          "  " ++ t.name ++ " -> " ++ resolveName type_names t.product_type_ref))
  ++ (if matching_types.isEmpty then []
      else
        "OTHER TYPES:" :: matching_types.filterMap (fun p =>
          match schema.typespace.types[p.1]? with
          | some (TypeDef.Sum s) =>
            some ("  " ++ p.2 ++ " (enum with " ++ toString s.variants.length ++ " variants)")
          | some (TypeDef.Product q) =>
            some ("  " ++ p.2 ++ " (struct with " ++ toString q.elements.length ++ " fields)")
          | _ => none))
  ++ (if matching_tables.isEmpty && matching_types.isEmpty then
        ["No matches found for " ++ pat]
      else [])

end SpacetimeSchema

namespace SpacetimeSchema

/-! ## Supporting lemmas -/

/-- A variant is a data variant exactly when it is not a unit variant:
the two tests of the pattern-2 loop are complementary. -/
theorem isDataVariant_eq_not_unit (v : Variant) : isDataVariant v = !isUnitVariant v := by
  obtain ⟨n, t⟩ := v
  cases t <;> rfl

/-- When the head variant carries data, the unnamed-variant loop of
`get_option_inner_type` answers immediately, unwrapping a one-element
Product payload exactly as the specification describes for rule (b). -/
theorem optionInnerLoop_cons_data (v : Variant) (rest : List Variant)
    (hv : isDataVariant v = true) :
    optionInnerLoop (v :: rest) = some (specRuleBInner v.algebraic_type) := by
  obtain ⟨n, t⟩ := v
  simp only [isDataVariant, Variant.algebraic_type] at hv
  cases t
  case Product p =>
    obtain ⟨es⟩ := p
    simp only [ProductType.elements] at hv
    rcases es with _ | ⟨e1, _ | ⟨e2, es3⟩⟩
    · simp at hv
    · rfl
    · rfl
  all_goals rfl

/-- If some variant of the list carries data, the unnamed-variant loop
of `get_option_inner_type` returns a value. -/
theorem optionInnerLoop_isSome_of_any_data :
    ∀ vs : List Variant, vs.any isDataVariant = true →
      (optionInnerLoop vs).isSome = true := by
  intro vs
  induction vs with
  | nil => simp
  | cons v rest ih =>
    intro hany
    by_cases hv : isDataVariant v = true
    · rw [optionInnerLoop_cons_data v rest hv]
      rfl
    · have hu : isUnitVariant v = true := by
        simp [isDataVariant_eq_not_unit] at hv
        exact hv
      obtain ⟨n, t⟩ := v
      simp only [isUnitVariant, Variant.algebraic_type] at hu
      cases t
      all_goals simp at hu
      rename_i p
      obtain ⟨es⟩ := p
      simp only [ProductType.elements] at hu
      subst hu
      simp only [List.any_cons, Bool.or_eq_true] at hany
      rcases hany with h1 | h1
      · simp [isDataVariant, Variant.algebraic_type, ProductType.elements] at h1
      · simpa [optionInnerLoop] using ih h1

/-- Looking a key up past a cons cell of the name map. -/
theorem lookupName_cons (a : Nat) (b : String) (m : NameMap) (i : Nat) :
    lookupName ((a, b) :: m) i = if a = i then some b else lookupName m i := by
  by_cases h : a = i
  · rw [lookupName, List.find?_cons_of_pos _ (by simpa using h), if_pos h]
    rfl
  · rw [lookupName, List.find?_cons_of_neg _ (by simpa using h), if_neg h]
    rfl

/-- Effect of the overwrite branch of `insertName` on lookups. -/
theorem lookupName_map_overwrite (k : Nat) (v : String) (i : Nat) :
    ∀ m : NameMap,
      lookupName (m.map (fun p => if p.1 == k then (k, v) else p)) i =
        if i = k then (if m.any (fun p => p.1 == k) = true then some v else none)
        else lookupName m i := by
  intro m
  induction m with
  | nil => simp [lookupName]
  | cons q m ih =>
    obtain ⟨a, b⟩ := q
    simp only [List.map_cons, List.any_cons]
    by_cases hak : a = k
    · rw [if_pos (show ((a, b).1 == k) = true by simp [hak])]
      rw [lookupName_cons, lookupName_cons, ih]
      by_cases hik : i = k
      · simp [hik, hak]
      · have h1 : ¬k = i := by omega
        have h2 : ¬a = i := by omega
        simp [hik, h1, h2, hak]
    · rw [if_neg (show ¬((a, b).1 == k) = true by simp [hak])]
      rw [lookupName_cons, lookupName_cons, ih]
      by_cases hai : a = i
      · have h1 : ¬i = k := by omega
        simp [hai, h1]
      · by_cases hik : i = k
        · have hb : (a == k) = false := by simp [hak]
          simp only [hb, Bool.false_or]
          simp [hai, hik, hak]
        · simp [hai, hik]

/-- Model of `HashMap::insert` semantics: a later insert for key `k`
overwrites, other keys are untouched. -/
theorem lookupName_insertName (m : NameMap) (k : Nat) (v : String) (i : Nat) :
    lookupName (insertName m k v) i = if i = k then some v else lookupName m i := by
  rw [insertName]
  split
  · rename_i hany
    rw [lookupName_map_overwrite k v i m]
    simp [hany]
  · rename_i hany
    simp only [Bool.not_eq_true] at hany
    by_cases hik : i = k
    · subst hik
      have hnone : m.find? (fun p => p.1 == i) = none := by
        rw [List.find?_eq_none]
        intro p hp hcon
        rw [List.any_of_mem hp hcon] at hany
        cases hany
      rw [lookupName, List.find?_append, hnone]
      rw [List.find?_cons_of_pos _ (by simp)]
      simp
    · rw [lookupName, List.find?_append, if_neg hik]
      cases hm : m.find? (fun p => p.1 == i) with
      | some p => simp [hm, lookupName]
      | none =>
        rw [List.find?_cons_of_neg _ (by simp [Ne.symm hik])]
        simp [hm, lookupName]

/-- Folding the name-map construction over a list of named types: the
result of a lookup is the last entry for the index, falling back to the
accumulator map. -/
theorem build_type_names_go (i : Nat) :
    ∀ (ts : List NamedType) (m : NameMap),
      lookupName (ts.foldl (fun m nt => insertName m nt.ty nt.name.name) m) i =
        match ts.reverse.find? (fun nt => nt.ty == i) with
        | some nt => some nt.name.name
        | none => lookupName m i := by
  intro ts
  induction ts with
  | nil => simp
  | cons t ts ih =>
    intro m
    simp only [List.foldl_cons, List.reverse_cons]
    rw [ih]
    rw [List.find?_append]
    cases hf : ts.reverse.find? (fun nt => nt.ty == i) with
    | some nt => simp
    | none =>
      simp only [Option.none_or]
      rw [lookupName_insertName]
      by_cases hti : t.ty = i
      · rw [List.find?_cons_of_pos _ (by simpa using hti)]
        have h2 : i = t.ty := hti.symm
        rw [if_pos h2]
      · rw [List.find?_cons_of_neg _ (by simpa using hti)]
        have h2 : ¬i = t.ty := fun h => hti h.symm
        rw [if_neg h2]
        rfl

end SpacetimeSchema

namespace SpacetimeSchema

/-! ## Claims -/

/-- C1 counterexample: the two-variant Sum with variants
`Some(Product[x: u8])` and `None(Product[])` has exactly the rule (b)
shape (one zero-element Product payload, one non-unit payload) and is
recognized as optional, yet the extracted inner type is the one-element
Product itself, not its single element type `u8` as the claim requires
for every rule (b) sum regardless of variant names: the variant named
`Some` is returned directly without unwrapping, and the Sum renders as
`Option<Product(1 fields)>` rather than `Option<u8>`. -/
theorem C1_counterexample :
    (SumType.mk [.mk (some "Some") (.Product (.mk [.mk (some "x") .U8])),
        .mk (some "None") (.Product (.mk []))]).variants.length = 2
    ∧ hasUnitVariant (.mk [.mk (some "Some") (.Product (.mk [.mk (some "x") .U8])),
        .mk (some "None") (.Product (.mk []))]) = true
    ∧ hasDataVariant (.mk [.mk (some "Some") (.Product (.mk [.mk (some "x") .U8])),
        .mk (some "None") (.Product (.mk []))]) = true
    ∧ is_option_type (.mk [.mk (some "Some") (.Product (.mk [.mk (some "x") .U8])),
        .mk (some "None") (.Product (.mk []))]) = true
    ∧ specRuleBInner (.Product (.mk [.mk (some "x") .U8])) = .U8
    ∧ get_option_inner_type (.mk [.mk (some "Some") (.Product (.mk [.mk (some "x") .U8])),
        .mk (some "None") (.Product (.mk []))])
      = some (.Product (.mk [.mk (some "x") .U8]))
    ∧ get_option_inner_type (.mk [.mk (some "Some") (.Product (.mk [.mk (some "x") .U8])),
        .mk (some "None") (.Product (.mk []))]) ≠ some .U8
    ∧ format_type (.Sum (.mk [.mk (some "Some") (.Product (.mk [.mk (some "x") .U8])),
        .mk (some "None") (.Product (.mk []))])) [] = "Option<Product(1 fields)>" := by
  refine ⟨rfl, by decide, by decide, by decide, rfl, rfl, ?_, ?_⟩
  · intro h
    rw [show get_option_inner_type (.mk [.mk (some "Some") (.Product (.mk [.mk (some "x") .U8])),
        .mk (some "None") (.Product (.mk []))])
      = some (.Product (.mk [.mk (some "x") .U8])) from rfl] at h
    simp at h
  · rw [format_type]
    show "Option<" ++ format_type (.Product (.mk [.mk (some "x") .U8])) [] ++ ">"
        = "Option<Product(1 fields)>"
    rw [format_type]
    rfl

/-- C1 (amended): for every two-variant Sum of rule (b) shape in which
no variant is named `Some`, the extracted inner payload type is the
non-unit variant type directly, unless that type is a Product with
exactly one element, in which case it is that single element type (one
level of tupling unwrapped); when a variant is named `Some` its payload
type is returned directly instead. -/
theorem C1_amended_inner_type (s : SumType)
    (hlen : s.variants.length = 2)
    (hunit : hasUnitVariant s = true)
    (hdata : hasDataVariant s = true)
    (hnosome : ∀ v ∈ s.variants, v.name ≠ some "Some") :
    ∃ v ∈ s.variants, isDataVariant v = true ∧
      get_option_inner_type s = some (specRuleBInner v.algebraic_type) := by
  obtain ⟨vs⟩ := s
  simp only [SumType.variants] at hlen hunit hdata hnosome ⊢
  rcases vs with _ | ⟨a, _ | ⟨b, _ | ⟨c, r⟩⟩⟩
  · simp at hlen
  · simp at hlen
  · have hfind : List.find? (fun v => v.name == some "Some") [a, b] = none := by
      rw [List.find?_eq_none]
      intro v hv
      simpa using hnosome v hv
    have hgo : get_option_inner_type (.mk [a, b]) = optionInnerLoop [a, b] := by
      rw [get_option_inner_type]
      simp [SumType.variants, hfind]
    by_cases ha : isUnitVariant a = true
    · have hda : isDataVariant a = false := by
        rw [isDataVariant_eq_not_unit, ha]
        rfl
      have hb : isDataVariant b = true := by
        simp [hasDataVariant, SumType.variants] at hdata
        rcases hdata with h | h
        · rw [hda] at h; cases h
        · exact h
      refine ⟨b, by simp, hb, ?_⟩
      rw [hgo]
      obtain ⟨na, ta⟩ := a
      simp only [isUnitVariant, Variant.algebraic_type] at ha
      cases ta
      all_goals simp at ha
      rename_i p
      obtain ⟨es⟩ := p
      simp only [ProductType.elements] at ha
      subst ha
      exact optionInnerLoop_cons_data b [] hb
    · have ha' : isDataVariant a = true := by
        rw [isDataVariant_eq_not_unit]
        simp [Bool.not_eq_true] at ha
        rw [ha]
        rfl
      exact ⟨a, by simp, ha', by rw [hgo]; exact optionInnerLoop_cons_data a [b] ha'⟩
  · simp only [List.length_cons] at hlen
    omega

/-- C1 witness: the amended statement applied to the concrete rule (b)
Sum `A(Product[])` and `B(u8)` with no variant named `Some`. -/
theorem C1_amended_inner_type_witness :
    ∃ v ∈ (SumType.mk [.mk (some "A") (.Product (.mk [])), .mk (some "B") .U8]).variants,
      isDataVariant v = true ∧
      get_option_inner_type (.mk [.mk (some "A") (.Product (.mk [])), .mk (some "B") .U8])
        = some (specRuleBInner v.algebraic_type) :=
  C1_amended_inner_type _ (by decide) (by decide) (by decide) (by decide)

/-- C2: for every index and name map, `format_type` renders `Ref(i)` as
the mapped name if the index is bound, else `Type_<i>`, never consulting
any typespace (the function does not even receive one, so a reference is
never expanded and formatting total by construction never fails);
in particular a dangling `Ref 0` renders as `Type_0` and a Product whose
single field is a cyclic self-reference `Ref 0` renders as `(Type_0)`. -/
theorem C2_ref_rendering_total (i : Nat) (m : NameMap) :
    format_type (.Ref i) m =
      (match lookupName m i with
        | some n => n
        | none => "Type_" ++ toString i)
    ∧ format_type (.Ref 0) [] = "Type_0"
    ∧ format_type (.Product (.mk [.mk none (.Ref 0)])) [] = "(Type_0)" := by
  refine ⟨?_, ?_, ?_⟩
  · rw [format_type]
  · rw [format_type]; rfl
  · rw [format_type]
    show "(" ++ String.intercalate ", " [format_type (.Ref 0) []] ++ ")" = "(Type_0)"
    rw [format_type]
    rfl

/-- C3: `detect_spacetimedb_type` returns `Identity`, `Timestamp` or
`Duration` exactly for a one-element Product whose element bears the
respective reserved marker name and the expected scalar (`u256` for
identity, `i64` for the other two); it returns nothing else, and the
one-element Product named `__identity__` but typed `i64` is rejected
and formats as `Product(1 fields)`. -/
theorem C3_wellknown_product_idioms (p : ProductType) :
    (detect_spacetimedb_type p = some "Identity" ↔
      p.elements = [Element.mk (some "__identity__") .U256])
    ∧ (detect_spacetimedb_type p = some "Timestamp" ↔
      p.elements = [Element.mk (some "__timestamp_micros_since_unix_epoch__") .I64])
    ∧ (detect_spacetimedb_type p = some "Duration" ↔
      p.elements = [Element.mk (some "__time_duration_micros__") .I64])
    ∧ (detect_spacetimedb_type p = none
        ∨ detect_spacetimedb_type p = some "Identity"
        ∨ detect_spacetimedb_type p = some "Timestamp"
        ∨ detect_spacetimedb_type p = some "Duration")
    ∧ format_type (.Product (.mk [.mk (some "__identity__") .I64])) [] = "Product(1 fields)" := by
  have main :
      (detect_spacetimedb_type p = some "Identity" ↔
        p.elements = [Element.mk (some "__identity__") .U256])
      ∧ (detect_spacetimedb_type p = some "Timestamp" ↔
        p.elements = [Element.mk (some "__timestamp_micros_since_unix_epoch__") .I64])
      ∧ (detect_spacetimedb_type p = some "Duration" ↔
        p.elements = [Element.mk (some "__time_duration_micros__") .I64])
      ∧ (detect_spacetimedb_type p = none
          ∨ detect_spacetimedb_type p = some "Identity"
          ∨ detect_spacetimedb_type p = some "Timestamp"
          ∨ detect_spacetimedb_type p = some "Duration") := by
    obtain ⟨es⟩ := p
    simp only [detect_spacetimedb_type, ProductType.elements]
    rcases es with _ | ⟨⟨n, t⟩, _ | ⟨e2, es⟩⟩
    · simp
    · rcases n with _ | n
      · simp [Element.name]
      · simp only [Element.name, Element.algebraic_type]
        split
        · cases t <;> simp_all
        · cases t <;> simp_all
        · cases t <;> simp_all
        · simp_all
    · simp
  exact ⟨main.1, main.2.1, main.2.2.1, main.2.2.2, by rw [format_type]; rfl⟩

/-- C4: `detect_spacetimedb_sum_type` recognizes `ScheduledAt` exactly
for Sums with two variants whose defined names, as a set, are
`{Interval, Time}` — independent of variant order and payload types —
and returns nothing else; the two-variant Sum named `{Start, End}` is
not detected and formats as `Sum(2 variants)`. -/
theorem C4_scheduledat_detection (s : SumType) :
    (detect_spacetimedb_sum_type s = some "ScheduledAt" ↔
      s.variants.length = 2 ∧
      (s.variants.filterMap Variant.name).toFinset = ({"Interval", "Time"} : Finset String))
    ∧ (detect_spacetimedb_sum_type s = none ∨ detect_spacetimedb_sum_type s = some "ScheduledAt")
    ∧ detect_spacetimedb_sum_type
        (.mk [.mk (some "Start") (.Product (.mk [])), .mk (some "End") (.Product (.mk []))]) = none
    ∧ format_type
        (.Sum (.mk [.mk (some "Start") (.Product (.mk [])), .mk (some "End") (.Product (.mk []))]))
        [] = "Sum(2 variants)" := by
  refine ⟨?_, ?_, by decide, by rw [format_type]; rfl⟩
  · obtain ⟨vs⟩ := s
    simp only [detect_spacetimedb_sum_type, SumType.variants]
    by_cases hlen : vs.length = 2
    · rcases vs with _ | ⟨⟨na, ta⟩, _ | ⟨⟨nb, tb⟩, _ | ⟨c, r⟩⟩⟩ <;> simp_all [Variant.name]
      rcases na with _ | x <;> rcases nb with _ | y <;> simp_all [Variant.name]
      · intro h
        have := Finset.ext_iff.mp h "Interval"
        simp at this
      · constructor
        · rintro ⟨rfl, h2⟩
          exact absurd h2 (by decide)
        · intro h
          have hI : ("Interval" : String) ∈ ({y} : Finset String) := by rw [h]; simp
          have hT : ("Time" : String) ∈ ({y} : Finset String) := by rw [h]; simp
          simp at hI hT
          exact ⟨hI.symm, hT.symm⟩
      · constructor
        · rintro ⟨rfl, h2⟩
          exact absurd h2 (by decide)
        · intro h
          have hI : ("Interval" : String) ∈ ({x} : Finset String) := by rw [h]; simp
          have hT : ("Time" : String) ∈ ({x} : Finset String) := by rw [h]; simp
          simp at hI hT
          exact ⟨hI.symm, hT.symm⟩
      · constructor
        · rintro ⟨hI, hT⟩
          rcases hI with rfl | rfl
          · have hy : y = "Time" := hT (by decide)
            subst hy
            rfl
          · by_cases hx : x = "Time"
            · subst hx
              exact Finset.pair_comm _ _
            · exact absurd (hT hx) (by decide)
        · intro h
          have hI : ("Interval" : String) ∈ ({x, y} : Finset String) := by rw [h]; simp
          have hT : ("Time" : String) ∈ ({x, y} : Finset String) := by rw [h]; simp
          simp at hI hT
          constructor
          · rcases hI with h1 | h1
            · exact Or.inl h1.symm
            · exact Or.inr h1.symm
          · intro hx
            rcases hT with h2 | h2
            · exact absurd h2.symm hx
            · exact h2.symm
    · simp [hlen]
  · rw [detect_spacetimedb_sum_type]
    split
    · dsimp only
      split
      · simp
      · simp
    · simp

end SpacetimeSchema

namespace SpacetimeSchema

/-- C5: substring search matches tables whose lowercased name contains
the lowercased search text, matches name-map entries under the same
test while excluding every index used as any table row type, and when
both result lists are empty the display output is exactly the header
plus an explicit no-matches line. -/
theorem C5_search_semantics (schema : SatsSchema) (m : NameMap) (pat : String) :
    (∀ t : TableInfo, t ∈ search_matching_tables schema (strLower pat) ↔
      t ∈ schema.tables ∧ strContainsSub (strLower t.name) (strLower pat) = true)
    ∧ (∀ (i : Nat) (n : String), (i, n) ∈ search_matching_types schema m (strLower pat) ↔
      ((i, n) ∈ m ∧ strContainsSub (strLower n) (strLower pat) = true ∧
        ∀ t ∈ schema.tables, t.product_type_ref ≠ i))
    ∧ (search_matching_tables schema (strLower pat) = [] →
       search_matching_types schema m (strLower pat) = [] →
       display_search_results schema m pat =
         ["SEARCH RESULTS FOR: " ++ pat, "No matches found for " ++ pat]) := by
  refine ⟨?_, ?_, ?_⟩
  · intro t
    simp [search_matching_tables, List.mem_filter]
  · intro i n
    simp [search_matching_types, List.mem_filter]
  · intro h1 h2
    simp [display_search_results, h1, h2]

/-- C5 witness: searching the empty schema prints the header and the
no-matches message. -/
theorem C5_search_semantics_witness :
    display_search_results (SatsSchema.mk ⟨[]⟩ [] []) [] "x" =
      ["SEARCH RESULTS FOR: " ++ "x", "No matches found for " ++ "x"] :=
  (C5_search_semantics (SatsSchema.mk ⟨[]⟩ [] []) [] "x").2.2 rfl rfl

/-- C6: every suggested name comes from the name map and satisfies the
heuristic (lowercased containment in either direction, or the lowercase
name starts with the first three characters of the lowercase search
term, the whole term when shorter); the list holds at most five names
and is sorted before printing. -/
theorem C6_suggestions (m : NameMap) (s : String) :
    (suggest_similar_types m s).length ≤ 5
    ∧ List.Sorted (fun a b : String => a ≤ b) (suggest_similar_types m s)
    ∧ (∀ name ∈ suggest_similar_types m s,
        name ∈ m.map (fun p => p.2) ∧
        (strContainsSub (strLower name) (strLower s) = true
          ∨ strContainsSub (strLower s) (strLower name) = true
          ∨ strStartsWith (strLower name) (String.mk ((strLower s).data.take 3)) = true)) := by
  refine ⟨?_, ?_, ?_⟩
  · rw [suggest_similar_types]
    rw [(List.perm_insertionSort _ _).length_eq]
    exact List.length_take_le 5 _
  · rw [suggest_similar_types]
    exact List.sorted_insertionSort _ _
  · intro name hname
    rw [suggest_similar_types, List.mem_insertionSort] at hname
    have hmem := List.mem_of_mem_take hname
    rw [List.mem_filter] at hmem
    refine ⟨hmem.1, ?_⟩
    have h2 := hmem.2
    simp only [Bool.or_eq_true] at h2
    rcases h2 with (h | h) | h
    · exact Or.inl h
    · exact Or.inr (Or.inl h)
    · exact Or.inr (Or.inr h)

/-- C6 witness: the suggestion list for search term `use` over a map
holding `Users` contains `Users`, which satisfies the heuristic. -/
theorem C6_suggestions_witness :
    "Users" ∈ [((0 : Nat), "Users")].map (fun p => p.2) ∧
    (strContainsSub (strLower "Users") (strLower "use") = true
      ∨ strContainsSub (strLower "use") (strLower "Users") = true
      ∨ strStartsWith (strLower "Users") (String.mk ((strLower "use").data.take 3)) = true) :=
  (C6_suggestions [((0 : Nat), "Users")] "use").2.2 "Users" (by decide)

/-- C7: single-table lookup is exact but ASCII-case-insensitive — for a
table named `Users` the queries `users` and `USERS` find it while `User`
does not — and a miss produces the not-found line followed by the names
of all tables, as ordinary output of the total display function. -/
theorem C7_single_table_lookup :
    ((SatsSchema.mk ⟨[TypeDef.Product (.mk [.mk (some "id") .U64])]⟩
        [TableInfo.mk "Users" 0 []] [NamedType.mk ⟨[], "UserRow"⟩ 0 false]).tables.find?
        (fun t => eqIgnoreAsciiCase t.name "users") = some (TableInfo.mk "Users" 0 []))
    ∧ ((SatsSchema.mk ⟨[TypeDef.Product (.mk [.mk (some "id") .U64])]⟩
        [TableInfo.mk "Users" 0 []] [NamedType.mk ⟨[], "UserRow"⟩ 0 false]).tables.find?
        (fun t => eqIgnoreAsciiCase t.name "USERS") = some (TableInfo.mk "Users" 0 []))
    ∧ ((SatsSchema.mk ⟨[TypeDef.Product (.mk [.mk (some "id") .U64])]⟩
        [TableInfo.mk "Users" 0 []] [NamedType.mk ⟨[], "UserRow"⟩ 0 false]).tables.find?
        (fun t => eqIgnoreAsciiCase t.name "User") = none)
    ∧ ∀ (schema : SatsSchema) (m : NameMap) (q : String),
        schema.tables.find? (fun t => eqIgnoreAsciiCase t.name q) = none →
        display_single_table schema m q =
          ("Table " ++ q ++ " not found")
          :: "Available tables:"
          :: schema.tables.map (fun t => "  - " ++ t.name) := by
  refine ⟨by decide, by decide, by decide, ?_⟩
  intro schema m q h
  rw [display_single_table, h]

/-- C7 witness: the miss branch applied to the query `User` against the
table `Users`. -/
theorem C7_single_table_lookup_witness :
    display_single_table (SatsSchema.mk ⟨[TypeDef.Product (.mk [.mk (some "id") .U64])]⟩
        [TableInfo.mk "Users" 0 []] [NamedType.mk ⟨[], "UserRow"⟩ 0 false]) [] "User" =
      ["Table User not found", "Available tables:", "  - Users"] :=
  (C7_single_table_lookup).2.2.2 _ [] "User" (by decide)

/-- C8: building the index-to-name map from the NamedType list is
last-write-wins — for every index the lookup yields exactly the name of
the last entry in list order carrying that index (and nothing when no
entry does), with no deduplication or conflict reporting. -/
theorem C8_last_write_wins (ts : List NamedType) (i : Nat) :
    lookupName (build_type_names ts) i =
      (ts.reverse.find? (fun nt => nt.ty == i)).map (fun nt => nt.name.name) := by
  rw [build_type_names, build_type_names_go i ts []]
  cases ts.reverse.find? (fun nt => nt.ty == i) with
  | some nt => rfl
  | none => rfl

/-- C9 counterexample: the literal output `Option<?>` is produced for an
input — the Sum `Some(Ref 0)` / `None(Product[])` under a name map that
binds index 0 to the name `?` — even though the sum is recognized as
optional and the extractor succeeds, so the string arises from the
normal rendering path, refuting the part of the claim that the string is
never produced for any input. -/
theorem C9_counterexample :
    format_type (.Sum (.mk [.mk (some "Some") (.Ref 0), .mk (some "None") (.Product (.mk []))]))
        [(0, "?")] = "Option<?>"
    ∧ is_option_type
        (.mk [.mk (some "Some") (.Ref 0), .mk (some "None") (.Product (.mk []))]) = true
    ∧ (get_option_inner_type
        (.mk [.mk (some "Some") (.Ref 0), .mk (some "None") (.Product (.mk []))])).isSome
        = true := by
  refine ⟨?_, by decide, rfl⟩
  rw [format_type]
  show "Option<" ++ format_type (.Ref 0) [(0, "?")] ++ ">" = "Option<?>"
  rw [format_type]
  rfl

/-- C9 (amended): for every SumType on which the optional-idiom
predicate holds, the inner-type extractor returns some type, so the
fallback branch of the formatter is unreachable (the string `Option<?>`
can still appear when a mapped type name is itself the literal `?`). -/
theorem C9_extractor_total (s : SumType) (h : is_option_type s = true) :
    (get_option_inner_type s).isSome = true := by
  rw [get_option_inner_type]
  cases hf : s.variants.find? (fun v => v.name == some "Some") with
  | some v => rfl
  | none =>
    rw [is_option_type] at h
    split at h
    · exact Bool.noConfusion h
    · dsimp only at h
      split at h
      · rename_i hcond
        simp only [Bool.and_eq_true] at hcond
        have hmem : "Some" ∈ s.variants.filterMap Variant.name := by
          have := hcond.1.2
          simpa using this
        rw [List.mem_filterMap] at hmem
        obtain ⟨v, hv, hvn⟩ := hmem
        rw [List.find?_eq_none] at hf
        exact absurd (by simp [hvn]) (hf v hv)
      · simp only [Bool.and_eq_true] at h
        exact optionInnerLoop_isSome_of_any_data s.variants h.2

/-- C9 witness: the extractor succeeds on the concrete optional Sum
`Some(Product[v: bool])` / `None(Product[])`. -/
theorem C9_extractor_total_witness :
    (get_option_inner_type (.mk [.mk (some "Some") (.Product (.mk [.mk (some "v") .Bool])),
        .mk (some "None") (.Product (.mk []))])).isSome = true :=
  C9_extractor_total _ (by decide)

/-- C10: when the single-type query matches a name-map entry
case-insensitively but the entry's index lies outside the typespace, the
single-type view prints no lines at all — neither the not-found message
nor the not-a-struct-or-enum report — and still returns normally. -/
theorem C10_out_of_bounds_silent (schema : SatsSchema) (m : NameMap) (q : String)
    (i : Nat) (n : String)
    (hfind : m.find? (fun p => eqIgnoreAsciiCase p.2 q) = some (i, n))
    (hoob : schema.typespace.types.length ≤ i) :
    display_single_type schema m q = [] := by
  simp [display_single_type, hfind, List.getElem?_eq_none hoob]

/-- C10 witness: querying `ghost` against a map binding index 5 to
`Ghost` over an empty typespace prints nothing. -/
theorem C10_out_of_bounds_silent_witness :
    display_single_type (SatsSchema.mk ⟨[]⟩ [] []) [((5 : Nat), "Ghost")] "ghost" = [] :=
  C10_out_of_bounds_silent _ _ _ 5 "Ghost" (by decide) (by decide)

end SpacetimeSchema
